import Mathlib

/-!
Verification of the WebSocket session coordinator in `src/server.js`
(NewAvalonSkirmish).  The definitions below are a shallow embedding of the
server's state, its message handlers and its timer subsystem; machine
randomness (player tokens, fresh decks) and serialization sizes are passed
as explicit oracle inputs.  Timers are modelled as finite maps from keys to
absolute deadlines; JavaScript `Map` objects are modelled as association
lists with set/delete replacing any previous binding.
-/

namespace NewAvalon

/-! ### Constants (src/server.js lines 26-34) -/

def MAX_PLAYERS : Nat := 4
def INACTIVITY_TIMEOUT_MS : Nat := 20 * 60 * 1000
def MAX_MESSAGE_SIZE : Nat := 1024 * 1024
def MAX_GAME_STATE_SIZE : Nat := 10 * 1024 * 1024
def MAX_ACTIVE_GAMES : Nat := 1000
def RATE_LIMIT_WINDOW : Nat := 60000
def MAX_STRING_LENGTH : Nat := 1000

/-! ### Sanitization gateway (src/server.js lines 44-62) -/

/-- The characters removed by `sanitizeString`'s first regex, `[<>\"'&]`
(HTML special characters), given by their code points. -/
def isHtmlSpecialChar (c : Char) : Bool :=
  c.toNat = 60 || c.toNat = 62 || c.toNat = 34 || c.toNat = 39 || c.toNat = 38

/-- The characters removed by `sanitizeString`'s second regex,
`[\x00-\x1F\x7F]` (control characters). -/
def isControlChar (c : Char) : Bool :=
  c.toNat ≤ 0x1F || c.toNat = 0x7F

/-- Character-list core of `sanitizeString`: strip HTML special characters,
strip control characters, then truncate to `maxLength` (the `substring`
call). -/
def sanitizeChars (l : List Char) (maxLength : Nat) : List Char :=
  (((l.filter (fun c => !isHtmlSpecialChar c)).filter
      (fun c => !isControlChar c)).take maxLength)

/-- Function `sanitizeString` from src/server.js lines 44-51 (string input case; the
JS fallback for non-string input returns `""` and is outside this model's
typed input). -/
def sanitizeString (input : String) (maxLength : Nat) : String :=
  ⟨sanitizeChars input.data maxLength⟩

/-- JS `String.prototype.trim`: strip whitespace from both ends, modelled
on the character list. -/
def trimChars (l : List Char) : List Char :=
  ((l.dropWhile Char.isWhitespace).reverse.dropWhile
    Char.isWhitespace).reverse

/-- Function `sanitizePlayerName` (src/server.js lines 53-55): sanitize with cap 50,
trim, default to `"Anonymous"` when empty. -/
def sanitizePlayerName (name : String) : String :=
  let t : String := ⟨trimChars (sanitizeString name 50).data⟩
  if t = "" then "Anonymous" else t

/-- Characters admitted by `sanitizeGameId`: alphanumerics, hyphen (45),
underscore (95). -/
def isGameIdChar (c : Char) : Bool :=
  c.isAlphanum || c.toNat = 45 || c.toNat = 95

/-- Function `sanitizeGameId` (src/server.js lines 57-62): keep only safe characters,
then require length between 1 and 50. -/
def sanitizeGameId (gameId : String) : Option String :=
  let sanitized : String := ⟨gameId.data.filter isGameIdChar⟩
  if sanitized.data.length ≤ 50 && 1 ≤ sanitized.data.length then some sanitized
  else none

/-! ### Rate limiter (src/server.js lines 81-95) -/

/-- Function `checkMessageRateLimit`: filter the connection's stored timestamps down
to those within the rolling window, reject when 60 or more remain, and
otherwise record the new timestamp.  Returns (admitted?, new stored list);
on rejection the stored list is left as it was (the source returns before
`messageCounts.set`). -/
def checkMessageRateLimit (rate : List Nat) (now : Nat) : Bool × List Nat :=
  let recent := rate.filter (fun t => now - t < RATE_LIMIT_WINDOW)
  if 60 ≤ recent.length then (false, rate)
  else (true, recent ++ [now])

/-! ### Data model -/

/-- A card as produced by `createDeck`; the coordinator never inspects card
fields beyond carrying them, so only identity-relevant fields appear. -/
structure Card where
  cardId : String
  baseId : String
  ownerId : Nat
  ownerName : String
  deriving Repr, DecidableEq

/-- A player slot, mirroring the object built by `createNewPlayer`
(src/server.js lines 238-263).  `playerToken = none` models the JS `null`
token of a permanently vacated (dummy) slot. -/
structure Player where
  id : Nat
  name : String
  score : Int
  hand : List Card
  deck : List Card
  discard : List Card
  selectedDeck : String
  color : String
  isDummy : Bool
  isDisconnected : Bool
  playerToken : Option String
  isReady : Bool
  deriving Repr, DecidableEq

/-- A session's state as far as the coordinator reads it; the rules-engine
blob is opaque and omitted. -/
structure GameState where
  gameId : String
  players : List Player
  isPrivate : Bool
  isGameStarted : Bool
  isReadyCheckActive : Bool
  deriving Repr, DecidableEq

/-! ### Association-map operations (JS `Map` semantics) -/

def mapLookup {κ α : Type} [DecidableEq κ] : List (κ × α) → κ → Option α
  | [], _ => none
  | (k', v) :: rest, k => if k' = k then some v else mapLookup rest k

def mapErase {κ α : Type} [DecidableEq κ] (m : List (κ × α)) (k : κ) :
    List (κ × α) :=
  m.filter (fun e => decide (e.1 ≠ k))

def mapInsert {κ α : Type} [DecidableEq κ] (m : List (κ × α)) (k : κ) (v : α) :
    List (κ × α) :=
  (k, v) :: mapErase m k

/-- Player-reversion timer key: the source keys `playerDisconnectTimers` by
the string `` `${gameId}-${playerId}` ``. -/
def dkey (gameId : String) (playerId : Nat) : String :=
  gameId ++ "-" ++ toString playerId

/-- JS `String.prototype.startsWith`, on the character lists. -/
def strStartsWith (s pre : String) : Bool :=
  pre.data.isPrefixOf s.data

/-- The coordinator's complete mutable state: the four process-wide maps of
src/server.js lines 19-24 that the claims concern (session store and the
three timer kinds).  Timer values are absolute firing deadlines. -/
structure ServerState where
  gameStates : List (String × GameState)
  terminationTimers : List (String × Nat)
  inactivityTimers : List (String × Nat)
  disconnectTimers : List (String × Nat)
  deriving Repr, DecidableEq

def initialServerState : ServerState :=
  { gameStates := [], terminationTimers := [], inactivityTimers := [],
    disconnectTimers := [] }

/-! ### Replies and connection-level effects -/

inductive Reply where
  | joinSuccess (playerId : Option Nat) (playerToken : Option String)
  | errorMsg (message : String)
  | rawState
  deriving Repr, DecidableEq

inductive Effect where
  | send (r : Reply)
  | close (code : Nat) (reason : String)
  | broadcastState (gameId : String)
  | broadcastGamesList
  | terminateGameClients (gameId : String)
  deriving Repr, DecidableEq

/-! ### List helpers mirroring JS in-place patterns -/

/-- Mutate the first element satisfying `pred` (the JS
`players.find(...)`-then-assign pattern). -/
def updateFirst {α : Type} (l : List α) (pred : α → Bool) (f : α → α) :
    List α :=
  match l with
  | [] => []
  | x :: xs => if pred x then f x :: xs else x :: updateFirst xs pred f

/-- Stable insertion by player id, used to model
`players.sort((a, b) => a.id - b.id)`. -/
def insertById (p : Player) : List Player → List Player
  | [] => [p]
  | q :: rest => if p.id ≤ q.id then p :: q :: rest else q :: insertById p rest

/-- Stable sort by player id (JS `Array.prototype.sort` is stable). -/
def sortById : List Player → List Player
  | [] => []
  | p :: rest => insertById p (sortById rest)

/-- Fueled version of the id-allocation loop
`while (existingIds.has(newPlayerId)) newPlayerId++`. -/
def lowestUnusedAux (ids : List Nat) : Nat → Nat → Nat
  | 0, cand => cand
  | fuel + 1, cand =>
      if cand ∈ ids then lowestUnusedAux ids fuel (cand + 1) else cand

/-- The lowest numeric id not used by any existing player, starting from 1
(src/server.js lines 749-753). -/
def lowestUnusedId (players : List Player) : Nat :=
  let ids := players.map (fun p => p.id)
  lowestUnusedAux ids (ids.length + 1) 1

/-! ### Player creation (src/server.js lines 238-263) -/

def PLAYER_COLORS : List String :=
  ["blue", "purple", "red", "green", "yellow", "orange", "pink", "brown"]

/-- Color assignment `PLAYER_COLORS[id-1] || 'blue'`. -/
def colorFor (id : Nat) : String :=
  (PLAYER_COLORS.get? (id - 1)).getD "blue"

/-- First selectable deck id from the content catalog
(contentDatabase.json); the catalog contents are external to the
coordinator, so the id is a fixed symbol here. -/
def DEFAULT_DECK_TYPE : String := "default"

/-- Function `createNewPlayer` (src/server.js lines 238-263).  The random session
token and the freshly shuffled starting deck come from
`generatePlayerToken()` and `createDeck(...)`; both are randomized, so they
enter the model as explicit oracle inputs `freshToken` and `newDeck`. -/
def createNewPlayer (id : Nat) (freshToken : String) (newDeck : List Card) :
    Player :=
  { id := id
    name := sanitizePlayerName ("Player " ++ toString id)
    score := 0
    hand := []
    deck := newDeck
    discard := []
    selectedDeck := DEFAULT_DECK_TYPE
    color := colorFor id
    isDummy := false
    isDisconnected := false
    playerToken := some freshToken
    isReady := false }

/-! ### Timer subsystem -/

/-- Function `resetInactivityTimer` (src/server.js lines 343-361): clear any existing
session-idle timer for the game and install a fresh one 20 minutes out. -/
def resetInactivityTimer (st : ServerState) (gameId : String) (now : Nat) :
    ServerState :=
  { st with inactivityTimers :=
      mapInsert st.inactivityTimers gameId (now + INACTIVITY_TIMEOUT_MS) }

/-- Function `scheduleGameTermination` (src/server.js lines 393-411): if a
termination timer for the game already exists the call returns without
touching it; otherwise a timer one minute out is installed. -/
def scheduleGameTermination (st : ServerState) (gameId : String) (now : Nat) :
    ServerState :=
  if (mapLookup st.terminationTimers gameId).isSome then st
  else
    { st with terminationTimers :=
        mapInsert st.terminationTimers gameId (now + 60 * 1000) }

/-- Function `cancelGameTermination` (src/server.js lines 417-424). -/
def cancelGameTermination (st : ServerState) (gameId : String) : ServerState :=
  { st with terminationTimers := mapErase st.terminationTimers gameId }

/-! ### Game teardown (src/server.js lines 285-336) -/

/-- Function `endGame`: remove the session from the store, cancel its three timer
kinds (player-reversion timers are matched by the JS prefix test
`` key.startsWith(`${gameId}-`) ``), terminate lingering bound connections
and publish the games list.  Log flushing is pure I/O and is not part of
the state model. -/
def endGame (st : ServerState) (gameId : String) : ServerState × List Effect :=
  ({ gameStates := mapErase st.gameStates gameId
     terminationTimers := mapErase st.terminationTimers gameId
     inactivityTimers := mapErase st.inactivityTimers gameId
     disconnectTimers :=
       st.disconnectTimers.filter
         (fun e => !strStartsWith e.1 (gameId ++ "-")) },
   [Effect.terminateGameClients gameId, Effect.broadcastGamesList])

/-! ### Player-slot reversion (src/server.js lines 368-387) -/

/-- The in-place mutation applied to a slot when it reverts to a Dummy:
puppeted, renamed to the default automated name, credential revoked. -/
def dummify (q : Player) : Player :=
  { q with isDummy := true, isDisconnected := false,
           name := "Dummy " ++ toString q.id, playerToken := none }

/-- Function `convertPlayerToDummy`: the player-reversion timer callback.  If the
slot with the given id is still Disconnected it becomes a Dummy: puppeted,
renamed, its credential revoked (`playerToken = null`), and the timer entry
is dropped. -/
def convertPlayerToDummy (st : ServerState) (gameId : String)
    (playerId : Nat) : ServerState × List Effect :=
  match mapLookup st.gameStates gameId with
  | none => (st, [])
  | some gs =>
    match gs.players.find? (fun p => p.id == playerId) with
    | none => (st, [])
    | some p =>
      if p.isDisconnected then
        let players' :=
          updateFirst gs.players (fun q => q.id == playerId) dummify
        ({ st with
             gameStates :=
               mapInsert st.gameStates gameId { gs with players := players' }
             disconnectTimers :=
               mapErase st.disconnectTimers (dkey gameId playerId) },
         [Effect.broadcastState gameId])
      else (st, [])

/-! ### Disconnect handling (src/server.js lines 545-591) -/

/-- Function `handlePlayerLeave`: mark the slot Disconnected; when the slot was not
found or already Disconnected the function returns before any mutation.
A non-manual exit schedules the 60s reversion timer (replacing any
existing one); if no Connected human remains, a termination timer is
scheduled. -/
def handlePlayerLeave (st : ServerState) (gameId : String) (playerId : Nat)
    (isManualExit : Bool) (now : Nat) : ServerState × List Effect :=
  if gameId = "" then (st, [])
  else
    match mapLookup st.gameStates gameId with
    | none => (st, [])
    | some gs =>
      let found :=
        gs.players.any (fun p => p.id == playerId && !p.isDisconnected)
      if !found then (st, [])
      else
        let players' := gs.players.map (fun p =>
          if p.id == playerId && !p.isDisconnected then
            { p with isDisconnected := true, isReady := false }
          else p)
        let st1 :=
          { st with gameStates :=
              mapInsert st.gameStates gameId { gs with players := players' } }
        let st2 :=
          { st1 with disconnectTimers :=
              mapErase st1.disconnectTimers (dkey gameId playerId) }
        let newTimers :=
          mapInsert st2.disconnectTimers (dkey gameId playerId)
            (now + 60 * 1000)
        let st3 :=
          if !isManualExit then { st2 with disconnectTimers := newTimers }
          else st2
        let actives :=
          players'.filter (fun p => !p.isDummy && !p.isDisconnected)
        let st4 :=
          if actives.length = 0 then scheduleGameTermination st3 gameId now
          else st3
        (st4, [Effect.broadcastState gameId, Effect.broadcastGamesList])

/-! ### JOIN_GAME handler (src/server.js lines 684-773) -/

/-- JS truthiness of the optional `playerToken` field (`if (playerToken)`):
absent or empty-string tokens do not enter the reconnection branch. -/
def tokenTruthy : Option String → Bool
  | none => false
  | some t => !(t == "")

/-- The `JOIN_GAME` handler.  `freshToken` and `newDeck` are the oracle
outputs of `generatePlayerToken()` / `createDeck(...)` consumed if the join
takes over a ghost slot or allocates a new one.  Branches, in source
order: reconnection by credential, ghost-slot takeover, new player when
occupancy is below `MAX_PLAYERS`, spectator. -/
def handleJoinGame (st : ServerState) (gameId : String)
    (playerToken : Option String) (freshToken : String) (newDeck : List Card)
    (now : Nat) : ServerState × List Effect :=
  match mapLookup st.gameStates gameId with
  | none =>
    (st, [Effect.send (Reply.errorMsg
      ("Game with code " ++ gameId ++ " not found."))])
  | some gs =>
    let st0 := resetInactivityTimer st gameId now
    let reconnectCandidate :=
      if tokenTruthy playerToken then
        gs.players.find?
          (fun p => p.playerToken == playerToken && p.isDisconnected)
      else none
    match reconnectCandidate with
    | some target =>
      let st1 := cancelGameTermination st0 gameId
      let players' := updateFirst gs.players
        (fun p => p.playerToken == playerToken && p.isDisconnected)
        (fun p => { p with isDisconnected := false })
      let st2 :=
        { st1 with
            gameStates :=
              mapInsert st1.gameStates gameId { gs with players := players' }
            disconnectTimers :=
              mapErase st1.disconnectTimers (dkey gameId target.id) }
      (st2, [Effect.send (Reply.joinSuccess (some target.id)
               target.playerToken),
             Effect.broadcastState gameId, Effect.broadcastGamesList])
    | none =>
      match gs.players.find? (fun p => p.isDisconnected) with
      | some target =>
        let st1 := cancelGameTermination st0 gameId
        let players' := updateFirst gs.players (fun p => p.isDisconnected)
          (fun p =>
            { p with isDisconnected := false,
                     name := sanitizePlayerName ("Player " ++ toString p.id),
                     playerToken := some freshToken })
        let st2 :=
          { st1 with
              gameStates :=
                mapInsert st1.gameStates gameId
                  { gs with players := players' }
              disconnectTimers :=
                mapErase st1.disconnectTimers (dkey gameId target.id) }
        (st2, [Effect.send (Reply.joinSuccess (some target.id)
                 (some freshToken)),
               Effect.broadcastState gameId, Effect.broadcastGamesList])
      | none =>
        let actives :=
          gs.players.filter (fun p => !p.isDummy && !p.isDisconnected)
        let dummies := gs.players.filter (fun p => p.isDummy)
        if actives.length + dummies.length < MAX_PLAYERS then
          let st1 := cancelGameTermination st0 gameId
          let newId := lowestUnusedId gs.players
          let newPlayer := createNewPlayer newId freshToken newDeck
          let st2 :=
            { st1 with
                gameStates :=
                  mapInsert st1.gameStates gameId
                    { gs with players := sortById (gs.players ++ [newPlayer]) } }
          (st2, [Effect.send (Reply.joinSuccess (some newId)
                   (some freshToken)),
                 Effect.broadcastState gameId, Effect.broadcastGamesList])
        else
          (st0, [Effect.send (Reply.joinSuccess none none),
                 Effect.send Reply.rawState])

/-! ### UPDATE_STATE handler (src/server.js lines 784-866) -/

/-- The `UPDATE_STATE` handler.  `stateSize` is the length of
`JSON.stringify(updatedGameState)`, an oracle input since serialization is
outside the model.  An unsanitizable game id falls through with no reply
(the JS `else if (gameIdToUpdate)` guard); an existing session is
overwritten after the 10MB cap check; otherwise a new session is created
subject to the active-game ceiling and the same cap. -/
def handleUpdateState (st : ServerState) (payload : GameState)
    (stateSize : Nat) (now : Nat) : ServerState × List Effect :=
  match sanitizeGameId payload.gameId with
  | none => (st, [])
  | some gid =>
    if (mapLookup st.gameStates gid).isSome then
      if MAX_GAME_STATE_SIZE < stateSize then
        (st, [Effect.send (Reply.errorMsg "Game state too large")])
      else
        (resetInactivityTimer
          { st with gameStates := mapInsert st.gameStates gid payload }
          gid now,
         [Effect.broadcastState gid])
    else
      if MAX_ACTIVE_GAMES ≤ st.gameStates.length then
        (st, [Effect.send (Reply.errorMsg "Too many active games")])
      else if MAX_GAME_STATE_SIZE < stateSize then
        (st, [Effect.send (Reply.errorMsg "Game state too large")])
      else
        (resetInactivityTimer
          { st with gameStates := mapInsert st.gameStates gid payload }
          gid now,
         [Effect.broadcastGamesList, Effect.broadcastState gid])

/-- The `FORCE_SYNC` handler (src/server.js lines 867-886): the host's
state replaces the stored one verbatim; `isHost` models
`ws.playerId === 1`.  The game id is taken raw from the payload. -/
def handleForceSync (st : ServerState) (payload : GameState) (isHost : Bool)
    (now : Nat) : ServerState × List Effect :=
  if !(payload.gameId == "") &&
      (mapLookup st.gameStates payload.gameId).isSome && isHost then
    (resetInactivityTimer
      { st with gameStates := mapInsert st.gameStates payload.gameId payload }
      payload.gameId now,
     [Effect.broadcastState payload.gameId])
  else (st, [])

/-! ### LEAVE_GAME handler (src/server.js lines 975-996) -/

/-- The `LEAVE_GAME` handler: when the leaver is the last Connected,
non-Dummy player the game ends immediately; otherwise the slot is marked
Disconnected via a manual exit (no reversion timer). -/
def handleLeaveGame (st : ServerState) (gameId : String) (playerId : Nat)
    (now : Nat) : ServerState × List Effect :=
  match mapLookup st.gameStates gameId with
  | none => (st, [])
  | some gs =>
    let actives :=
      gs.players.filter (fun p => !p.isDummy && !p.isDisconnected)
    if actives.any (fun p => p.id == playerId) && actives.length == 1 then
      endGame st gameId
    else
      handlePlayerLeave st gameId playerId true now

/-! ### Timer firings -/

/-- The termination-timer callback (src/server.js lines 399-408), guarded
by the timer still being installed (a cleared timeout never runs). -/
def fireTerminationTimer (st : ServerState) (gameId : String) :
    ServerState × List Effect :=
  if (mapLookup st.terminationTimers gameId).isNone then (st, [])
  else
    let actives : List Player :=
      match mapLookup st.gameStates gameId with
      | none => []
      | some gs =>
        gs.players.filter (fun p => !p.isDummy && !p.isDisconnected)
    if actives.length = 0 then endGame st gameId
    else
      ({ st with terminationTimers := mapErase st.terminationTimers gameId },
       [])

/-- The inactivity-timer callback (src/server.js lines 352-358), guarded by
the timer still being installed. -/
def fireInactivityTimer (st : ServerState) (gameId : String) :
    ServerState × List Effect :=
  if (mapLookup st.inactivityTimers gameId).isNone then (st, [])
  else
    match mapLookup st.gameStates gameId with
    | none => (st, [])
    | some _ => endGame st gameId

/-- The player-reversion timer firing, guarded by the timer still being
installed. -/
def fireReversionTimer (st : ServerState) (gameId : String)
    (playerId : Nat) : ServerState × List Effect :=
  if (mapLookup st.disconnectTimers (dkey gameId playerId)).isNone then
    (st, [])
  else convertPlayerToDummy st gameId playerId

/-! ### Inbound message pipeline (src/server.js lines 604-671) -/

/-- An inbound `UPDATE_STATE` frame: the raw WebSocket message size and
(once parsed) the payload with its serialization size. -/
structure IncomingFrame where
  rawSize : Nat
  payload : GameState
  stateSize : Nat
  deriving Repr, DecidableEq

/-- The per-message pipeline for `UPDATE_STATE` frames: rate limit first
(close 1008 on violation, stored timestamps untouched), then the 1MB frame
cap (close 1009), then the handler.  `rate` is the sender connection's
entry in `messageCounts`. -/
def handleMessage (st : ServerState) (rate : List Nat) (now : Nat)
    (frame : IncomingFrame) : ServerState × List Nat × List Effect :=
  let r := checkMessageRateLimit rate now
  if r.1 = false then
    (st, r.2, [Effect.close 1008 "Message rate limit exceeded"])
  else if MAX_MESSAGE_SIZE < frame.rawSize then
    (st, r.2, [Effect.close 1009 "Message too large"])
  else
    let res := handleUpdateState st frame.payload frame.stateSize now
    (res.1, r.2, res.2)

/-! ### Event-level step relation for the session store -/

/-- One handled event of the coordinator: the inbound messages that touch
the session store's player lists, a connection loss, and the three timer
firings.  Randomness (`freshToken`, `newDeck`) and the clock (`now`) are
carried by the event. -/
inductive Event where
  | joinGame (gameId : String) (playerToken : Option String)
      (freshToken : String) (newDeck : List Card) (now : Nat)
  | updateState (payload : GameState) (stateSize : Nat) (now : Nat)
  | forceSync (payload : GameState) (isHost : Bool) (now : Nat)
  | leaveGame (gameId : String) (playerId : Nat) (now : Nat)
  | clientClose (gameId : String) (playerId : Nat) (now : Nat)
  | fireReversion (gameId : String) (playerId : Nat)
  | fireTermination (gameId : String)
  | fireInactivity (gameId : String)

/-- Dispatch one event to its handler (the WebSocket `close` event reaches
`handlePlayerLeave` with `isManualExit = false`, src/server.js lines
1164-1169). -/
def stepEvent (st : ServerState) (e : Event) : ServerState :=
  match e with
  | .joinGame g tok ft deck now => (handleJoinGame st g tok ft deck now).1
  | .updateState payload ssize now =>
      (handleUpdateState st payload ssize now).1
  | .forceSync payload isHost now =>
      (handleForceSync st payload isHost now).1
  | .leaveGame g pid now => (handleLeaveGame st g pid now).1
  | .clientClose g pid now => (handlePlayerLeave st g pid false now).1
  | .fireReversion g pid => (fireReversionTimer st g pid).1
  | .fireTermination g => (fireTerminationTimer st g).1
  | .fireInactivity g => (fireInactivityTimer st g).1

/-- Run a sequence of events from the fresh process state. -/
def runEvents (events : List Event) : ServerState :=
  events.foldl stepEvent initialServerState

/-- The capacity invariant of the session store. -/
def playersBounded (st : ServerState) : Prop :=
  ∀ g gs, mapLookup st.gameStates g = some gs →
    gs.players.length ≤ MAX_PLAYERS

/-- Payloads accepted verbatim by `UPDATE_STATE`/`FORCE_SYNC` respect the
capacity; all other events carry no player list. -/
def eventPayloadOk : Event → Prop
  | .updateState payload _ _ => payload.players.length ≤ MAX_PLAYERS
  | .forceSync payload _ _ => payload.players.length ≤ MAX_PLAYERS
  | _ => True

/-! ### Trace-model definitions and concrete fixtures used by the theorems -/

/-- Fold `checkMessageRateLimit` over a sequence of arrival timestamps for
one connection, collecting the admitted timestamps.  Returns the final
stored timestamp list and the admitted arrivals in order. -/
def processArrivals (rate : List Nat) : List Nat → List Nat × List Nat
  | [] => (rate, [])
  | t :: rest =>
    let r := checkMessageRateLimit rate t
    let res := processArrivals r.2 rest
    (res.1, if r.1 then t :: res.2 else res.2)

/-- Arrival timestamps are produced by a monotone clock. -/
def nondecreasing : List Nat → Bool
  | [] => true
  | [_] => true
  | a :: b :: rest => decide (a ≤ b) && nondecreasing (b :: rest)

/-- Number of timestamps falling in the rolling window ending at `T`. -/
def winCount (T : Nat) (l : List Nat) : Nat :=
  (l.filter (fun a => decide (a ≤ T) &&
    decide (T - a < RATE_LIMIT_WINDOW))).length

/-- Number of stored timestamps still inside the window ending at `T`. -/
def aliveCount (T : Nat) (r : List Nat) : Nat :=
  (r.filter (fun a => decide (T - a < RATE_LIMIT_WINDOW))).length

/-- All sessions in a store respect the player capacity. -/
def boundedMap (m : List (String × GameState)) : Prop :=
  ∀ g gs, mapLookup m g = some gs → gs.players.length ≤ MAX_PLAYERS

def mkPlayer (i : Nat) (dum disc : Bool) (tok : Option String) : Player :=
  { id := i, name := "P" ++ toString i, score := 0, hand := [], deck := [],
    discard := [], selectedDeck := "d", color := "blue", isDummy := dum,
    isDisconnected := disc, playerToken := tok, isReady := false }

def mkGame (g : String) (ps : List Player) : GameState :=
  { gameId := g, players := ps, isPrivate := false, isGameStarted := false,
    isReadyCheckActive := false }

def c10Game : GameState := mkGame "g" [mkPlayer 1 false true (some "t1")]

def c10State : ServerState :=
  { gameStates := [("g", c10Game)], terminationTimers := [],
    inactivityTimers := [], disconnectTimers := [] }

def c5State : ServerState :=
  { gameStates := [], terminationTimers := [("g", 100)],
    inactivityTimers := [], disconnectTimers := [] }

def c5BState : ServerState :=
  { gameStates := [("g", mkGame "g" [mkPlayer 1 false false (some "t1")])],
    terminationTimers := [], inactivityTimers := [],
    disconnectTimers := [(dkey "g" 1, 3)] }

def c5CState : ServerState :=
  { gameStates := [], terminationTimers := [("g", 7)],
    inactivityTimers := [], disconnectTimers := [] }

def c3Game : GameState := mkGame "g" [mkPlayer 1 false false (some "t1")]

def c3State : ServerState :=
  { gameStates := [("g", c3Game)], terminationTimers := [],
    inactivityTimers := [], disconnectTimers := [] }

def c3Frame : IncomingFrame :=
  { rawSize := 12 * 1024 * 1024, payload := mkGame "g" [],
    stateSize := 12 * 1024 * 1024 }

def c6Game : GameState := mkGame "ABC123" [mkPlayer 1 false false (some "t1")]

def c6State : ServerState :=
  { gameStates := [("ABC123", c6Game)], terminationTimers := [],
    inactivityTimers := [("ABC123", 50)],
    disconnectTimers := [(dkey "ABC123" 1, 60)] }

def c4Game : GameState :=
  mkGame "g" [mkPlayer 1 true false none, mkPlayer 2 true false none,
    mkPlayer 3 true false none, mkPlayer 4 true false none]

def c4State : ServerState :=
  { gameStates := [("g", c4Game)], terminationTimers := [("g", 99)],
    inactivityTimers := [], disconnectTimers := [] }

def c4WGame : GameState := mkGame "g" [mkPlayer 1 false true (some "t1")]

def c4WState : ServerState :=
  { gameStates := [("g", c4WGame)], terminationTimers := [("g", 99)],
    inactivityTimers := [], disconnectTimers := [] }

def c7Frame : IncomingFrame :=
  { rawSize := 10, payload := mkGame "g" [], stateSize := 10 }

def c1BigGame : GameState :=
  mkGame "g" [mkPlayer 1 false false (some "a"), mkPlayer 2 false false
    (some "b"), mkPlayer 3 false false (some "c"), mkPlayer 4 false false
    (some "e"), mkPlayer 5 false false (some "f")]

def c1WGame : GameState :=
  mkGame "g" [mkPlayer 1 false false (some "a"), mkPlayer 2 false false
    (some "b")]

def c8Game : GameState := mkGame "g" [mkPlayer 1 false true (some "abc")]

def c8State : ServerState :=
  { gameStates := [("g", c8Game)], terminationTimers := [],
    inactivityTimers := [], disconnectTimers := [] }

def c8AfterPlayer : Player :=
  { id := 1, name := "Player 1", score := 0, hand := [], deck := [],
    discard := [], selectedDeck := "d", color := "blue", isDummy := false,
    isDisconnected := false, playerToken := some "abc", isReady := false }

def c8WPlayer : Player := mkPlayer 1 false true (some "old")

def c8WGame : GameState := mkGame "g" [c8WPlayer]

def c8WState : ServerState :=
  { gameStates := [("g", c8WGame)], terminationTimers := [],
    inactivityTimers := [], disconnectTimers := [] }

def c2P1 : Player := mkPlayer 1 false true (some "t1")

def c2P2 : Player := mkPlayer 2 false false (some "t2")

def c2Game : GameState := mkGame "g" [c2P1, c2P2]

def c2State : ServerState :=
  { gameStates := [("g", c2Game)], terminationTimers := [],
    inactivityTimers := [], disconnectTimers := [(dkey "g" 1, 9)] }

/-! ### Lemmas: association maps -/

theorem mapErase_cons_self {κ α : Type} [DecidableEq κ]
    (k : κ) (b : α) (rest : List (κ × α)) :
    mapErase ((k, b) :: rest) k = mapErase rest k := by
  simp [mapErase]

theorem mapErase_cons_ne {κ α : Type} [DecidableEq κ]
    {a k : κ} (b : α) (rest : List (κ × α)) (h : a ≠ k) :
    mapErase ((a, b) :: rest) k = (a, b) :: mapErase rest k := by
  simp [mapErase, h]

theorem mapLookup_mapErase {κ α : Type} [DecidableEq κ]
    (m : List (κ × α)) (k k' : κ) :
    mapLookup (mapErase m k) k' = if k' = k then none else mapLookup m k' := by
  induction m with
  | nil =>
    show (none : Option α) = if k' = k then none else none
    rw [ite_self]
  | cons e rest ih =>
    obtain ⟨a, b⟩ := e
    by_cases hak : a = k
    · subst hak
      rw [mapErase_cons_self, ih]
      by_cases hk : k' = a
      · rw [if_pos hk, if_pos hk]
      · rw [if_neg hk, if_neg hk]
        show mapLookup rest k' = mapLookup ((a, b) :: rest) k'
        have : ¬a = k' := fun hh => hk hh.symm
        simp [mapLookup, this]
    · rw [mapErase_cons_ne b rest hak]
      by_cases hk' : a = k'
      · subst hk'
        have h1 : ¬a = k := hak
        simp [mapLookup, h1]
      · show (if a = k' then some b else mapLookup (mapErase rest k) k') = _
        rw [if_neg hk', ih]
        by_cases hk : k' = k
        · rw [if_pos hk, if_pos hk]
        · rw [if_neg hk, if_neg hk]
          show mapLookup rest k' = mapLookup ((a, b) :: rest) k'
          simp [mapLookup, hk']

theorem mapLookup_mapInsert_self {κ α : Type} [DecidableEq κ]
    (m : List (κ × α)) (k : κ) (v : α) :
    mapLookup (mapInsert m k v) k = some v := by
  simp [mapInsert, mapLookup]

theorem mapLookup_mapInsert_ne {κ α : Type} [DecidableEq κ]
    (m : List (κ × α)) (k k' : κ) (v : α) (h : k' ≠ k) :
    mapLookup (mapInsert m k v) k' = mapLookup m k' := by
  show (if k = k' then some v else mapLookup (mapErase m k) k') = _
  have h1 : ¬k = k' := fun hh => h hh.symm
  rw [if_neg h1, mapLookup_mapErase, if_neg h]

theorem mapLookup_mapErase_self {κ α : Type} [DecidableEq κ]
    (m : List (κ × α)) (k : κ) :
    mapLookup (mapErase m k) k = none := by
  simp [mapLookup_mapErase]

/-- Looking up a key that every kept entry avoids yields nothing; used for
`endGame`'s prefix-based sweep of the reversion timers. -/
theorem mapLookup_filter_none {κ α : Type} [DecidableEq κ]
    (m : List (κ × α)) (f : κ × α → Bool) (k : κ)
    (h : ∀ v, f (k, v) = false) :
    mapLookup (m.filter f) k = none := by
  induction m with
  | nil => rfl
  | cons e rest ih =>
    obtain ⟨a, b⟩ := e
    by_cases hak : a = k
    · subst hak
      simp only [List.filter, h b]
      exact ih
    · cases hf : f (a, b) with
      | false => simpa [List.filter, hf] using ih
      | true => simpa [List.filter, hf, mapLookup, hak] using ih

/-! ### Lemmas: record projections of the state-updating helpers -/

@[simp] theorem resetInactivityTimer_gameStates (st : ServerState)
    (g : String) (now : Nat) :
    (resetInactivityTimer st g now).gameStates = st.gameStates := rfl

@[simp] theorem resetInactivityTimer_terminationTimers (st : ServerState)
    (g : String) (now : Nat) :
    (resetInactivityTimer st g now).terminationTimers =
      st.terminationTimers := rfl

@[simp] theorem resetInactivityTimer_disconnectTimers (st : ServerState)
    (g : String) (now : Nat) :
    (resetInactivityTimer st g now).disconnectTimers =
      st.disconnectTimers := rfl

@[simp] theorem resetInactivityTimer_inactivityTimers (st : ServerState)
    (g : String) (now : Nat) :
    (resetInactivityTimer st g now).inactivityTimers =
      mapInsert st.inactivityTimers g (now + INACTIVITY_TIMEOUT_MS) := rfl

@[simp] theorem cancelGameTermination_gameStates (st : ServerState)
    (g : String) :
    (cancelGameTermination st g).gameStates = st.gameStates := rfl

@[simp] theorem cancelGameTermination_terminationTimers (st : ServerState)
    (g : String) :
    (cancelGameTermination st g).terminationTimers =
      mapErase st.terminationTimers g := rfl

@[simp] theorem cancelGameTermination_inactivityTimers (st : ServerState)
    (g : String) :
    (cancelGameTermination st g).inactivityTimers = st.inactivityTimers := rfl

@[simp] theorem cancelGameTermination_disconnectTimers (st : ServerState)
    (g : String) :
    (cancelGameTermination st g).disconnectTimers = st.disconnectTimers := rfl

@[simp] theorem scheduleGameTermination_gameStates (st : ServerState)
    (g : String) (now : Nat) :
    (scheduleGameTermination st g now).gameStates = st.gameStates := by
  unfold scheduleGameTermination
  split <;> rfl

@[simp] theorem scheduleGameTermination_inactivityTimers (st : ServerState)
    (g : String) (now : Nat) :
    (scheduleGameTermination st g now).inactivityTimers =
      st.inactivityTimers := by
  unfold scheduleGameTermination
  split <;> rfl

@[simp] theorem scheduleGameTermination_disconnectTimers (st : ServerState)
    (g : String) (now : Nat) :
    (scheduleGameTermination st g now).disconnectTimers =
      st.disconnectTimers := by
  unfold scheduleGameTermination
  split <;> rfl

/-! ### Lemmas: `updateFirst`, `sortById`, `lowestUnusedId` -/

@[simp] theorem updateFirst_length {α : Type} (l : List α) (pred : α → Bool)
    (f : α → α) : (updateFirst l pred f).length = l.length := by
  induction l with
  | nil => rfl
  | cons x xs ih =>
    simp only [updateFirst]
    split <;> simp [ih]

theorem updateFirst_map_of_fixed {α β : Type} (l : List α) (pred : α → Bool)
    (f : α → α) (proj : α → β) (hf : ∀ x, proj (f x) = proj x) :
    (updateFirst l pred f).map proj = l.map proj := by
  induction l with
  | nil => rfl
  | cons x xs ih =>
    simp only [updateFirst]
    split <;> simp [ih, hf]

theorem mem_updateFirst_of_not_pred {α : Type} {l : List α}
    {pred : α → Bool} {f : α → α} {x : α} (hx : x ∈ l)
    (hpx : pred x = false) : x ∈ updateFirst l pred f := by
  induction l with
  | nil => cases hx
  | cons y ys ih =>
    rcases List.mem_cons.mp hx with h | h
    · subst h
      rw [updateFirst, if_neg (by rw [hpx]; exact Bool.false_ne_true)]
      exact List.mem_cons_self _ _
    · rw [updateFirst]
      split
      · exact List.mem_cons_of_mem _ h
      · exact List.mem_cons_of_mem _ (ih h)

theorem updateFirst_mem_result {α : Type} {l : List α} {pred : α → Bool}
    {f : α → α} {p : α} (h : l.find? pred = some p) :
    f p ∈ updateFirst l pred f := by
  induction l with
  | nil => cases h
  | cons x xs ih =>
    by_cases hx : pred x = true
    · rw [List.find?_cons_of_pos _ hx] at h
      injection h with h
      subst h
      rw [updateFirst, if_pos hx]
      exact List.mem_cons_self _ _
    · rw [List.find?_cons_of_neg _ hx] at h
      rw [updateFirst, if_neg hx]
      exact List.mem_cons_of_mem _ (ih h)

@[simp] theorem insertById_length (p : Player) (l : List Player) :
    (insertById p l).length = l.length + 1 := by
  induction l with
  | nil => rfl
  | cons q rest ih =>
    simp only [insertById]
    split <;> simp [ih]

@[simp] theorem sortById_length (l : List Player) :
    (sortById l).length = l.length := by
  induction l with
  | nil => rfl
  | cons p rest ih => simp [sortById, ih]

theorem mem_insertById {p q : Player} {l : List Player} :
    q ∈ insertById p l ↔ q = p ∨ q ∈ l := by
  induction l with
  | nil => simp [insertById]
  | cons r rest ih =>
    simp only [insertById]
    split
    · simp [List.mem_cons]
    · simp only [List.mem_cons, ih]
      tauto

theorem mem_sortById {q : Player} {l : List Player} :
    q ∈ sortById l ↔ q ∈ l := by
  induction l with
  | nil => simp [sortById]
  | cons p rest ih =>
    simp only [sortById, mem_insertById, List.mem_cons, ih]

theorem countP_ge_succ_lt {ids : List Nat} {c : Nat} (hc : c ∈ ids) :
    ids.countP (fun x => c + 1 ≤ x) < ids.countP (fun x => c ≤ x) := by
  induction ids with
  | nil => cases hc
  | cons a rest ih =>
    rw [List.countP_cons, List.countP_cons]
    rcases List.mem_cons.mp hc with h | h
    · subst h
      have hmono : rest.countP (fun x => decide (c + 1 ≤ x)) ≤
          rest.countP (fun x => decide (c ≤ x)) := by
        apply List.countP_mono_left
        intro x _ hx
        simp only [decide_eq_true_eq] at hx ⊢
        omega
      have h1 : (decide (c + 1 ≤ c)) = false := by
        simp only [decide_eq_false_iff_not]
        omega
      have h2 : (decide (c ≤ c)) = true := by simp
      rw [h1, h2]
      have e1 : (if (false : Bool) = true then 1 else 0) = 0 := rfl
      have e2 : (if (true : Bool) = true then 1 else 0) = 1 := rfl
      rw [e1, e2]
      omega
    · have hlt := ih h
      have hind : (if decide (c + 1 ≤ a) = true then 1 else 0) ≤
          (if decide (c ≤ a) = true then 1 else 0) := by
        by_cases h1 : c + 1 ≤ a
        · have h2 : c ≤ a := by omega
          simp [h1, h2]
        · simp [h1]
      omega

theorem length_filter_ge_succ_lt {ids : List Nat} {c : Nat} (hc : c ∈ ids) :
    (ids.filter (fun x => c + 1 ≤ x)).length <
      (ids.filter (fun x => c ≤ x)).length := by
  rw [← List.countP_eq_length_filter, ← List.countP_eq_length_filter]
  exact countP_ge_succ_lt hc

theorem lowestUnusedAux_not_mem (ids : List Nat) :
    ∀ fuel c, (ids.filter (fun x => c ≤ x)).length < fuel →
      lowestUnusedAux ids fuel c ∉ ids := by
  intro fuel
  induction fuel with
  | zero => intro c h; omega
  | succ n ih =>
    intro c h
    by_cases hc : c ∈ ids
    · have hlt := length_filter_ge_succ_lt hc
      simp only [lowestUnusedAux, if_pos hc]
      exact ih (c + 1) (by omega)
    · simp [lowestUnusedAux, hc]

theorem lowestUnusedId_not_mem (players : List Player) :
    lowestUnusedId players ∉ players.map (fun p => p.id) := by
  apply lowestUnusedAux_not_mem
  calc ((players.map (fun p => p.id)).filter (fun x => 1 ≤ x)).length
      ≤ (players.map (fun p => p.id)).length := List.length_filter_le _ _
    _ < (players.map (fun p => p.id)).length + 1 := Nat.lt_succ_self _

/-! ### Lemmas: partition of a roster without Disconnected slots -/

/-- In a roster with no Disconnected slot every player is either active
(Connected, non-Dummy) or a Dummy, so the two filters of the JOIN_GAME
capacity check partition the roster. -/
theorem active_add_dummy_length (l : List Player)
    (hnd : ∀ p ∈ l, p.isDisconnected = false) :
    (l.filter (fun p => !p.isDummy && !p.isDisconnected)).length +
      (l.filter (fun p => p.isDummy)).length = l.length := by
  induction l with
  | nil => rfl
  | cons p rest ih =>
    have hp := hnd p (List.mem_cons_self _ _)
    have hrest := fun q hq => hnd q (List.mem_cons_of_mem _ hq)
    have ih' := ih hrest
    by_cases hd : p.isDummy = true
    · rw [List.filter_cons_of_neg (by simp [hd]),
        List.filter_cons_of_pos (by simp [hd]), List.length_cons,
        List.length_cons]
      omega
    · have hd' : p.isDummy = false := by
        cases h : p.isDummy
        · rfl
        · exact absurd h hd
      rw [List.filter_cons_of_pos (by simp [hd', hp]),
        List.filter_cons_of_neg (by simp [hd']), List.length_cons,
        List.length_cons]
      omega

/-! ### Lemmas: sanitizer idempotence -/

theorem sanitizeChars_idem (l : List Char) (n : Nat) :
    sanitizeChars (sanitizeChars l n) n = sanitizeChars l n := by
  unfold sanitizeChars
  have h1 : ∀ c ∈ ((l.filter (fun c => !isHtmlSpecialChar c)).filter
      (fun c => !isControlChar c)).take n, (!isHtmlSpecialChar c) = true := by
    intro c hc
    have hc' := List.mem_of_mem_take hc
    exact (List.mem_filter.mp (List.mem_of_mem_filter hc')).2
  have h2 : ∀ c ∈ ((l.filter (fun c => !isHtmlSpecialChar c)).filter
      (fun c => !isControlChar c)).take n, (!isControlChar c) = true := by
    intro c hc
    exact (List.mem_filter.mp (List.mem_of_mem_take hc)).2
  rw [List.filter_eq_self.mpr h1, List.filter_eq_self.mpr h2]
  rw [List.take_take, Nat.min_self]

theorem sanitizeString_idem (s : String) (n : Nat) :
    sanitizeString (sanitizeString s n) n = sanitizeString s n :=
  congrArg String.mk (sanitizeChars_idem s.data n)

/-! ### Lemmas: string prefixes (endGame's timer sweep) -/

theorem string_data_append (a b : String) :
    (a ++ b).data = a.data ++ b.data := by
  cases a
  cases b
  rfl

theorem isPrefixOf_append_self (l t : List Char) :
    l.isPrefixOf (l ++ t) = true := by
  induction l with
  | nil => simp
  | cons c cs ih => simp [List.isPrefixOf, ih]

theorem strStartsWith_dkey (g : String) (p : Nat) :
    strStartsWith (dkey g p) (g ++ "-") = true := by
  unfold strStartsWith dkey
  rw [string_data_append]
  exact isPrefixOf_append_self _ _

/-! ### Rate-limiter trace model -/

theorem nondecreasing_tail {a : Nat} {l : List Nat}
    (h : nondecreasing (a :: l) = true) : nondecreasing l = true := by
  cases l with
  | nil => rfl
  | cons b rest =>
    simp only [nondecreasing, Bool.and_eq_true] at h
    exact h.2

theorem nondecreasing_head_le {a : Nat} {l : List Nat}
    (h : nondecreasing (a :: l) = true) : ∀ x ∈ l, a ≤ x := by
  induction l generalizing a with
  | nil => intro x hx; cases hx
  | cons b rest ih =>
    intro x hx
    simp only [nondecreasing, Bool.and_eq_true, decide_eq_true_eq] at h
    rcases List.mem_cons.mp hx with hb | hr
    · subst hb; exact h.1
    · exact le_trans h.1 (ih (by simpa [nondecreasing] using h.2) x hr)

theorem mem_of_mem_processArrivals {rate : List Nat} {ts : List Nat}
    {a : Nat} (h : a ∈ (processArrivals rate ts).2) : a ∈ ts := by
  induction ts generalizing rate with
  | nil => cases h
  | cons t rest ih =>
    simp only [processArrivals] at h
    split at h
    · rcases List.mem_cons.mp h with h' | h'
      · exact h' ▸ List.mem_cons_self _ _
      · exact List.mem_cons_of_mem _ (ih h')
    · exact List.mem_cons_of_mem _ (ih h)

theorem winCount_eq_zero_of_all_gt {T : Nat} {l : List Nat}
    (h : ∀ a ∈ l, ¬a ≤ T) : winCount T l = 0 := by
  unfold winCount
  rw [List.filter_eq_nil_iff.mpr]
  · rfl
  · intro a ha
    simp only [Bool.and_eq_true, decide_eq_true_eq, not_and]
    intro hle
    exact absurd hle (h a ha)

theorem checkMessageRateLimit_reject {rate : List Nat} {now : Nat}
    (h : 60 ≤ (rate.filter
      (fun t => decide (now - t < RATE_LIMIT_WINDOW))).length) :
    checkMessageRateLimit rate now = (false, rate) := by
  simp [checkMessageRateLimit, h]

theorem checkMessageRateLimit_pass {rate : List Nat} {now : Nat}
    (h : ¬60 ≤ (rate.filter
      (fun t => decide (now - t < RATE_LIMIT_WINDOW))).length) :
    checkMessageRateLimit rate now =
      (true, rate.filter (fun t => decide (now - t < RATE_LIMIT_WINDOW))
        ++ [now]) := by
  simp [checkMessageRateLimit, h]

/-- Invariant behind the rolling-window bound: after processing a
nondecreasing arrival sequence, the messages admitted inside the window
ending at `T` never exceed the budget left by the stored timestamps that
are still inside that window. -/
theorem processArrivals_winCount_le (ts : List Nat) :
    ∀ rate T, nondecreasing ts = true →
      winCount T (processArrivals rate ts).2 ≤ 60 - aliveCount T rate := by
  induction ts with
  | nil =>
    intro rate T _
    simp [processArrivals, winCount]
  | cons t rest ih =>
    intro rate T hnd
    have hndr : nondecreasing rest = true := nondecreasing_tail hnd
    by_cases ht : t ≤ T
    · by_cases hrej : 60 ≤ (rate.filter
        (fun x => decide (t - x < RATE_LIMIT_WINDOW))).length
      · have heq := checkMessageRateLimit_reject hrej
        simp only [processArrivals, heq]
        simpa using ih rate T hndr
      · have heq := checkMessageRateLimit_pass hrej
        simp only [processArrivals, heq]
        rw [if_pos trivial]
        have halive : aliveCount T (rate.filter
            (fun x => decide (t - x < RATE_LIMIT_WINDOW))) =
            aliveCount T rate := by
          unfold aliveCount
          rw [List.filter_filter]
          apply congrArg List.length
          apply List.filter_congr
          intro a _
          by_cases ha : T - a < RATE_LIMIT_WINDOW
          · have hta : t - a < RATE_LIMIT_WINDOW :=
              lt_of_le_of_lt (Nat.sub_le_sub_right ht a) ha
            simp [ha, hta]
          · simp [ha]
        have happ : aliveCount T ((rate.filter
            (fun x => decide (t - x < RATE_LIMIT_WINDOW))) ++ [t]) =
            aliveCount T rate +
              (if T - t < RATE_LIMIT_WINDOW then 1 else 0) := by
          unfold aliveCount
          rw [List.filter_append, List.length_append]
          unfold aliveCount at halive
          rw [halive]
          congr 1
          by_cases h : T - t < RATE_LIMIT_WINDOW <;> simp [h]
        have hIH := ih ((rate.filter
          (fun x => decide (t - x < RATE_LIMIT_WINDOW))) ++ [t]) T hndr
        rw [happ] at hIH
        have hlen : aliveCount T rate ≤ (rate.filter
            (fun x => decide (t - x < RATE_LIMIT_WINDOW))).length := by
          rw [← halive]
          exact List.length_filter_le _ _
        have hlt : (rate.filter
            (fun x => decide (t - x < RATE_LIMIT_WINDOW))).length < 60 :=
          Nat.lt_of_not_le hrej
        by_cases hwin : T - t < RATE_LIMIT_WINDOW
        · have hcons : winCount T (t :: (processArrivals
              ((rate.filter (fun x => decide (t - x < RATE_LIMIT_WINDOW)))
                ++ [t]) rest).2) =
              winCount T ((processArrivals
              ((rate.filter (fun x => decide (t - x < RATE_LIMIT_WINDOW)))
                ++ [t]) rest).2) + 1 := by
            unfold winCount
            rw [List.filter_cons_of_pos (by simp [ht, hwin]),
              List.length_cons]
          rw [hcons]
          rw [if_pos hwin] at hIH
          omega
        · have hcons : winCount T (t :: (processArrivals
              ((rate.filter (fun x => decide (t - x < RATE_LIMIT_WINDOW)))
                ++ [t]) rest).2) =
              winCount T ((processArrivals
              ((rate.filter (fun x => decide (t - x < RATE_LIMIT_WINDOW)))
                ++ [t]) rest).2) := by
            unfold winCount
            rw [List.filter_cons_of_neg (by simp [hwin])]
          rw [hcons]
          rw [if_neg hwin] at hIH
          omega
    · have hzero : winCount T (processArrivals rate (t :: rest)).2 = 0 := by
        apply winCount_eq_zero_of_all_gt
        intro a ha
        simp only [processArrivals] at ha
        have hstep : ∀ b ∈ (processArrivals
            (checkMessageRateLimit rate t).2 rest).2, ¬b ≤ T := by
          intro b hb
          have hbrest := mem_of_mem_processArrivals hb
          have htb := nondecreasing_head_le hnd b hbrest
          omega
        by_cases hadm : (checkMessageRateLimit rate t).1 = true
        · rw [if_pos hadm] at ha
          rcases List.mem_cons.mp ha with h' | h'
          · subst h'; exact ht
          · exact hstep a h'
        · rw [if_neg hadm] at ha
          exact hstep a ha
      rw [hzero]
      exact Nat.zero_le _

/-- The rolling-window guarantee for a fresh connection: over any monotone
arrival sequence, at most 60 messages are admitted whose timestamps lie in
any rolling window. -/
theorem processArrivals_window_bound (ts : List Nat)
    (h : nondecreasing ts = true) (T : Nat) :
    winCount T (processArrivals [] ts).2 ≤ 60 := by
  have hb := processArrivals_winCount_le ts [] T h
  simpa [aliveCount] using hb

/-! ### Capacity preservation through every handler -/

theorem boundedMap_mapInsert {m : List (String × GameState)} {k : String}
    {gs : GameState} (h : boundedMap m)
    (hv : gs.players.length ≤ MAX_PLAYERS) : boundedMap (mapInsert m k gs) := by
  intro g' gs' hl
  by_cases hk : g' = k
  · subst hk
    rw [mapLookup_mapInsert_self] at hl
    injection hl with hl
    exact hl ▸ hv
  · rw [mapLookup_mapInsert_ne _ _ _ _ hk] at hl
    exact h g' gs' hl

theorem boundedMap_mapErase {m : List (String × GameState)} {k : String}
    (h : boundedMap m) : boundedMap (mapErase m k) := by
  intro g' gs' hl
  rw [mapLookup_mapErase] at hl
  by_cases hk : g' = k
  · rw [if_pos hk] at hl; cases hl
  · rw [if_neg hk] at hl; exact h g' gs' hl

theorem endGame_bounded {st : ServerState} {g : String}
    (h : boundedMap st.gameStates) : boundedMap (endGame st g).1.gameStates :=
  boundedMap_mapErase h

theorem convertPlayerToDummy_bounded {st : ServerState} {g : String}
    {pid : Nat} (h : boundedMap st.gameStates) :
    boundedMap (convertPlayerToDummy st g pid).1.gameStates := by
  unfold convertPlayerToDummy
  split
  · exact h
  · rename_i gs hlook
    split
    · exact h
    · split
      · apply boundedMap_mapInsert h
        simpa [updateFirst_length] using h g gs hlook
      · exact h

theorem handlePlayerLeave_bounded {st : ServerState} {g : String}
    {pid : Nat} {manual : Bool} {now : Nat} (h : boundedMap st.gameStates) :
    boundedMap (handlePlayerLeave st g pid manual now).1.gameStates := by
  unfold handlePlayerLeave
  split
  · exact h
  · split
    · exact h
    · rename_i gs hlook
      dsimp only
      split
      · exact h
      · split <;> split <;>
        · simp only [scheduleGameTermination_gameStates]
          apply boundedMap_mapInsert h
          simpa [List.length_map] using h g gs hlook

theorem handleLeaveGame_bounded {st : ServerState} {g : String}
    {pid now : Nat} (h : boundedMap st.gameStates) :
    boundedMap (handleLeaveGame st g pid now).1.gameStates := by
  unfold handleLeaveGame
  split
  · exact h
  · dsimp only
    split
    · exact endGame_bounded h
    · exact handlePlayerLeave_bounded h

theorem handleUpdateState_bounded {st : ServerState} {payload : GameState}
    {ssize now : Nat} (h : boundedMap st.gameStates)
    (hp : payload.players.length ≤ MAX_PLAYERS) :
    boundedMap (handleUpdateState st payload ssize now).1.gameStates := by
  unfold handleUpdateState
  split
  · exact h
  · split
    · split
      · exact h
      · exact boundedMap_mapInsert h hp
    · split
      · exact h
      · split
        · exact h
        · exact boundedMap_mapInsert h hp

theorem handleForceSync_bounded {st : ServerState} {payload : GameState}
    {isHost : Bool} {now : Nat} (h : boundedMap st.gameStates)
    (hp : payload.players.length ≤ MAX_PLAYERS) :
    boundedMap (handleForceSync st payload isHost now).1.gameStates := by
  unfold handleForceSync
  split
  · simpa using boundedMap_mapInsert h hp
  · simpa using h

theorem fireTerminationTimer_bounded {st : ServerState} {g : String}
    (h : boundedMap st.gameStates) :
    boundedMap (fireTerminationTimer st g).1.gameStates := by
  unfold fireTerminationTimer
  split
  · exact h
  · dsimp only
    split
    · exact endGame_bounded h
    · exact h

theorem fireInactivityTimer_bounded {st : ServerState} {g : String}
    (h : boundedMap st.gameStates) :
    boundedMap (fireInactivityTimer st g).1.gameStates := by
  unfold fireInactivityTimer
  split
  · exact h
  · split
    · exact h
    · exact endGame_bounded h

theorem fireReversionTimer_bounded {st : ServerState} {g : String}
    {pid : Nat} (h : boundedMap st.gameStates) :
    boundedMap (fireReversionTimer st g pid).1.gameStates := by
  unfold fireReversionTimer
  split
  · simpa using h
  · exact convertPlayerToDummy_bounded h

theorem handleJoinGame_bounded {st : ServerState} {g : String}
    {tok : Option String} {ft : String} {deck : List Card} {now : Nat}
    (h : boundedMap st.gameStates) :
    boundedMap (handleJoinGame st g tok ft deck now).1.gameStates := by
  unfold handleJoinGame
  cases hlook : mapLookup st.gameStates g with
  | none => simpa using h
  | some gs =>
    have hgs := h g gs hlook
    cases hrc : (if tokenTruthy tok then
        gs.players.find? (fun p => p.playerToken == tok && p.isDisconnected)
      else none) with
    | some target =>
      simp only [hrc]
      apply boundedMap_mapInsert h
      simpa [updateFirst_length] using hgs
    | none =>
      simp only [hrc]
      cases hgh : gs.players.find? (fun p => p.isDisconnected) with
      | some target =>
        simp only []
        apply boundedMap_mapInsert h
        simpa [updateFirst_length] using hgs
      | none =>
        simp only []
        split
        · rename_i hcap
          apply boundedMap_mapInsert h
          have hnd : ∀ p ∈ gs.players, p.isDisconnected = false := by
            intro p hp
            have := List.find?_eq_none.mp hgh p hp
            simpa using this
          have hpart := active_add_dummy_length gs.players hnd
          have hm : MAX_PLAYERS = 4 := rfl
          simp only [sortById_length, List.length_append,
            List.length_singleton]
          rw [hm] at hcap ⊢
          omega
        · simpa using h

/-- One coordinator event preserves the capacity invariant, provided any
state payload it carries respects it. -/
theorem stepEvent_bounded {st : ServerState} {e : Event}
    (h : boundedMap st.gameStates) (he : eventPayloadOk e) :
    boundedMap (stepEvent st e).gameStates := by
  cases e with
  | joinGame g tok ft deck now => exact handleJoinGame_bounded h
  | updateState payload ssize now => exact handleUpdateState_bounded h he
  | forceSync payload isHost now => exact handleForceSync_bounded h he
  | leaveGame g pid now => exact handleLeaveGame_bounded h
  | clientClose g pid now => exact handlePlayerLeave_bounded h
  | fireReversion g pid => exact fireReversionTimer_bounded h
  | fireTermination g => exact fireTerminationTimer_bounded h
  | fireInactivity g => exact fireInactivityTimer_bounded h

theorem foldl_stepEvent_bounded (events : List Event) :
    ∀ st, boundedMap st.gameStates → (∀ e ∈ events, eventPayloadOk e) →
      boundedMap (events.foldl stepEvent st).gameStates := by
  induction events with
  | nil => intro st h _; exact h
  | cons e rest ih =>
    intro st h hall
    rw [List.foldl_cons]
    exact ih _ (stepEvent_bounded h (hall e (List.mem_cons_self _ _)))
      (fun e' he' => hall e' (List.mem_cons_of_mem _ he'))

/-! ### Concrete fixtures for witnesses and counterexamples -/

/-! ### Claim C9 -/

/-- C9: the string sanitizer is idempotent — for every string `s` and
length cap `n`, `sanitizeString (sanitizeString s n) n = sanitizeString s n`
(sanitizing an already-sanitized string is a no-op). -/
theorem c9_sanitizeString_idempotent (s : String) (n : Nat) :
    sanitizeString (sanitizeString s n) n = sanitizeString s n :=
  congrArg String.mk (sanitizeChars_idem s.data n)

/-! ### Claim C10 -/

/-- C10: processing a leave or connection-loss event for a player id whose
slot is already Disconnected (or absent from the session, or whose session
does not exist) is a no-op: `handlePlayerLeave` returns the state unchanged
with no effects — no timer scheduled or canceled, no broadcast. -/
theorem c10_stale_leave_noop (st : ServerState) (g : String) (pid : Nat)
    (manual : Bool) (now : Nat)
    (h : ∀ gs, mapLookup st.gameStates g = some gs →
      ∀ p ∈ gs.players, p.id = pid → p.isDisconnected = true) :
    handlePlayerLeave st g pid manual now = (st, []) := by
  unfold handlePlayerLeave
  split
  · rfl
  · split
    · rfl
    · rename_i gs hlook
      have hany : (gs.players.any
          (fun p => p.id == pid && !p.isDisconnected)) = false := by
        rw [List.any_eq_false]
        intro p hp
        by_cases hid : p.id = pid
        · have hd := h gs hlook p hp hid
          simp [hd]
        · simp [hid]
      dsimp only
      rw [if_pos (by rw [hany]; rfl)]

theorem c10_stale_leave_noop_witness :
    handlePlayerLeave c10State "g" 1 false 5 = (c10State, []) := by
  apply c10_stale_leave_noop
  intro gs hgs p hp hid
  have hconc : mapLookup c10State.gameStates "g" = some c10Game := rfl
  rw [hconc] at hgs
  cases hgs
  have hps : p = mkPlayer 1 false true (some "t1") := by
    simpa [c10Game, mkGame] using hp
  subst hps
  rfl

/-! ### Claim C5 -/

/-- C5 counterexample: the Session-Empty-Teardown timer is NOT
"replace, don't stack".  With a teardown timer for key `"g"` already
pending (deadline 100), scheduling again at time 1000000 leaves the state
— and in particular the old deadline — untouched, so the deadline is not
measured from the most recent scheduling event as the claim asserts. -/
theorem c5_counterexample :
    scheduleGameTermination c5State "g" 1000000 = c5State ∧
    mapLookup (scheduleGameTermination c5State "g" 1000000).terminationTimers
      "g" = some 100 ∧
    (100 : Nat) ≠ 1000000 + 60 * 1000 := by
  refine ⟨by decide, by decide, by decide⟩

/-- C5 amended: the Session-Idle timer (`resetInactivityTimer`) and the
Player-Reversion timer (scheduled inside `handlePlayerLeave`) are
replace-on-reschedule — the surviving deadline is measured from the most
recent scheduling event — while the Session-Empty-Teardown timer
(`scheduleGameTermination`) is schedule-once: a scheduling call while one
is pending for the key is a no-op that keeps the original deadline.  No
kind ever stacks a second timer for the same key. -/
theorem c5_timer_rescheduling (st stB stC : ServerState) (g : String)
    (gs : GameState) (pid now d : Nat) :
    mapLookup (resetInactivityTimer st g now).inactivityTimers g =
      some (now + INACTIVITY_TIMEOUT_MS) ∧
    (g ≠ "" → mapLookup stB.gameStates g = some gs →
      (gs.players.any (fun p => p.id == pid && !p.isDisconnected)) = true →
      mapLookup (handlePlayerLeave stB g pid false now).1.disconnectTimers
        (dkey g pid) = some (now + 60 * 1000)) ∧
    (mapLookup stC.terminationTimers g = some d →
      scheduleGameTermination stC g now = stC) := by
  refine ⟨?_, ?_, ?_⟩
  · rw [resetInactivityTimer_inactivityTimers, mapLookup_mapInsert_self]
  · intro hg hlook hfound
    unfold handlePlayerLeave
    rw [if_neg hg]
    rw [hlook]
    dsimp only
    rw [if_neg (by rw [hfound]; exact Bool.false_ne_true)]
    split
    · rw [scheduleGameTermination_disconnectTimers]
      exact mapLookup_mapInsert_self _ _ _
    · exact mapLookup_mapInsert_self _ _ _
  · intro hd
    unfold scheduleGameTermination
    rw [if_pos (by rw [hd]; rfl)]

theorem c5_timer_rescheduling_witness :
    mapLookup (resetInactivityTimer initialServerState "g" 5).inactivityTimers
      "g" = some (5 + INACTIVITY_TIMEOUT_MS) ∧
    mapLookup (handlePlayerLeave c5BState "g" 1 false 5).1.disconnectTimers
      (dkey "g" 1) = some (5 + 60 * 1000) ∧
    scheduleGameTermination c5CState "g" 5 = c5CState := by
  obtain ⟨h1, h2, h3⟩ := c5_timer_rescheduling initialServerState c5BState
    c5CState "g" (mkGame "g" [mkPlayer 1 false false (some "t1")]) 1 5 7
  exact ⟨h1, h2 (by decide) (by decide) (by decide), h3 (by decide)⟩

/-! ### Claim C3 -/

/-- C3 amended: a 12MB `UPDATE_STATE` frame never reaches the 10MB state
cap; it is rejected at the 1MB frame-size gate (`MAX_MESSAGE_SIZE`): the
connection is closed with code 1009 ("Message too large"), no `ERROR`
reply is sent, and the stored session state is unchanged.  (The claim's
expectation — an `ERROR` reply with the connection left open — is what the
10MB `MAX_GAME_STATE_SIZE` branch would do, but that branch is unreachable
for a frame this large.) -/
theorem c3_oversize_update_closes_connection (st : ServerState)
    (rate : List Nat) (now : Nat) (frame : IncomingFrame)
    (hpass : (checkMessageRateLimit rate now).1 = true)
    (hsize : frame.stateSize = 12 * 1024 * 1024)
    (hle : frame.stateSize ≤ frame.rawSize) :
    handleMessage st rate now frame =
      (st, (checkMessageRateLimit rate now).2,
        [Effect.close 1009 "Message too large"]) := by
  unfold handleMessage
  rw [if_neg (by simp [hpass])]
  rw [if_pos]
  have hm : MAX_MESSAGE_SIZE = 1024 * 1024 := rfl
  rw [hm]
  omega

/-- C3 counterexample: for an existing session `"g"`, an `UPDATE_STATE`
message whose serialized payload is 12MB produces exactly a close with
code 1009 — no `ERROR` reply and no open connection — refuting the claimed
reply-and-stay-open behavior (the state is indeed unchanged). -/
theorem c3_counterexample :
    mapLookup c3State.gameStates "g" = some c3Game ∧
    handleMessage c3State [] 5 c3Frame =
      (c3State, [5], [Effect.close 1009 "Message too large"]) ∧
    Effect.send (Reply.errorMsg "Game state too large") ∉
      (handleMessage c3State [] 5 c3Frame).2.2 := by
  refine ⟨by decide, by decide, by decide⟩

theorem c3_oversize_update_closes_connection_witness :
    handleMessage c3State [3] 5 c3Frame =
      (c3State, (checkMessageRateLimit [3] 5).2,
        [Effect.close 1009 "Message too large"]) :=
  c3_oversize_update_closes_connection c3State [3] 5 c3Frame (by decide)
    (by decide) (by decide)

/-! ### Claim C6 -/

/-- C6: when a session's only Connected, non-Automated player sends
`LEAVE_GAME`, the session is torn down immediately: the handler is exactly
`endGame` — the state is removed from the store, the session's teardown,
idle and reversion timers are all gone, and the remaining bound
connections are forcibly closed.  No 60-second grace period occurs. -/
theorem c6_last_player_leave_immediate_teardown (st : ServerState)
    (g : String) (pid now : Nat) (gs : GameState) (ap : Player)
    (hlook : mapLookup st.gameStates g = some gs)
    (hact : gs.players.filter (fun p => !p.isDummy && !p.isDisconnected) =
      [ap])
    (hid : ap.id = pid) :
    handleLeaveGame st g pid now = endGame st g ∧
    mapLookup (handleLeaveGame st g pid now).1.gameStates g = none ∧
    mapLookup (handleLeaveGame st g pid now).1.terminationTimers g = none ∧
    mapLookup (handleLeaveGame st g pid now).1.inactivityTimers g = none ∧
    (∀ q, mapLookup (handleLeaveGame st g pid now).1.disconnectTimers
      (dkey g q) = none) ∧
    Effect.terminateGameClients g ∈ (handleLeaveGame st g pid now).2 := by
  have heq : handleLeaveGame st g pid now = endGame st g := by
    unfold handleLeaveGame
    rw [hlook]
    dsimp only
    rw [hact]
    rw [if_pos (by simp [hid])]
  refine ⟨heq, ?_, ?_, ?_, ?_, ?_⟩
  · rw [heq]
    exact mapLookup_mapErase_self _ _
  · rw [heq]
    exact mapLookup_mapErase_self _ _
  · rw [heq]
    exact mapLookup_mapErase_self _ _
  · intro q
    rw [heq]
    apply mapLookup_filter_none
    intro v
    rw [strStartsWith_dkey]
    rfl
  · rw [heq]
    unfold endGame
    exact List.mem_cons_self _ _

theorem c6_last_player_leave_immediate_teardown_witness :
    handleLeaveGame c6State "ABC123" 1 5 = endGame c6State "ABC123" ∧
    mapLookup (handleLeaveGame c6State "ABC123" 1 5).1.gameStates
      "ABC123" = none := by
  obtain ⟨h1, h2, _⟩ := c6_last_player_leave_immediate_teardown c6State
    "ABC123" 1 5 c6Game (mkPlayer 1 false false (some "t1")) (by decide)
    (by decide) (by decide)
  exact ⟨h1, h2⟩

/-! ### Claim C4 -/

/-- C4 amended: handling `JOIN_GAME` cancels a pending
Session-Empty-Teardown timer in every outcome that assigns a Player-slot
(reconnection, ghost-slot takeover, new player) — but NOT in the
spectator outcome, where the handler never calls `cancelGameTermination`
and a pending teardown timer survives the join. -/
theorem c4_join_with_slot_cancels_teardown (st : ServerState) (g : String)
    (tok : Option String) (ft : String) (deck : List Card) (now pid : Nat)
    (cred : Option String)
    (hjs : Effect.send (Reply.joinSuccess (some pid) cred) ∈
      (handleJoinGame st g tok ft deck now).2) :
    mapLookup (handleJoinGame st g tok ft deck now).1.terminationTimers g =
      none := by
  unfold handleJoinGame at hjs ⊢
  cases hlook : mapLookup st.gameStates g with
  | none =>
    simp only [hlook] at hjs
    simp at hjs
  | some gs =>
    simp only [hlook] at hjs ⊢
    cases hrc : (if tokenTruthy tok then
        gs.players.find?
          (fun p => p.playerToken == tok && p.isDisconnected)
      else none) with
    | some target =>
      simp only [hrc] at hjs ⊢
      exact mapLookup_mapErase_self _ _
    | none =>
      simp only [hrc] at hjs ⊢
      cases hgh : gs.players.find? (fun p => p.isDisconnected) with
      | some target =>
        simp only [hgh] at hjs ⊢
        exact mapLookup_mapErase_self _ _
      | none =>
        simp only [hgh] at hjs ⊢
        split at hjs
        · rename_i hcap
          rw [if_pos hcap]
          exact mapLookup_mapErase_self _ _
        · simp at hjs

/-- C4 counterexample: a `JOIN_GAME` on a session with a pending teardown
timer that ends in the observer/spectator outcome (full table of Automated
slots) does NOT cancel the timer — it is still pending, with its original
deadline, after the join — refuting "in every join outcome". -/
theorem c4_counterexample :
    Effect.send (Reply.joinSuccess none none) ∈
      (handleJoinGame c4State "g" none "t" [] 0).2 ∧
    mapLookup (handleJoinGame c4State "g" none "t" [] 0).1.terminationTimers
      "g" = some 99 := by
  refine ⟨by decide, by decide⟩

theorem c4_join_with_slot_cancels_teardown_witness :
    mapLookup (handleJoinGame c4WState "g" (some "t1") "f" [] 0).1.terminationTimers "g" = none :=
  c4_join_with_slot_cancels_teardown c4WState "g" (some "t1") "f" [] 0 1
    (some "t1") (by decide)

/-! ### Claim C7 -/

/-- C7: the rate limiter admits at most 60 messages per rolling 60-second
window — over any nondecreasing arrival sequence the admitted timestamps
falling in any window number at most 60 — and a message arriving when the
window is already full (such as the 61st inside one window) is not
processed: the pipeline returns the state unchanged and closes the
connection with the policy-violation close code 1008. -/
theorem c7_rate_limit_window (ts : List Nat) (T : Nat) (st : ServerState)
    (rate : List Nat) (now : Nat) (frame : IncomingFrame)
    (hnd : nondecreasing ts = true)
    (hrej : (checkMessageRateLimit rate now).1 = false) :
    winCount T (processArrivals [] ts).2 ≤ 60 ∧
    handleMessage st rate now frame =
      (st, rate, [Effect.close 1008 "Message rate limit exceeded"]) := by
  constructor
  · exact processArrivals_window_bound ts hnd T
  · have heq : checkMessageRateLimit rate now = (false, rate) := by
      by_cases hc : 60 ≤ (rate.filter
          (fun t => decide (now - t < RATE_LIMIT_WINDOW))).length
      · exact checkMessageRateLimit_reject hc
      · rw [checkMessageRateLimit_pass hc] at hrej
        cases hrej
    unfold handleMessage
    rw [heq]
    rfl

set_option maxRecDepth 20000 in
theorem c7_rate_limit_window_witness :
    winCount 0 (processArrivals [] (List.replicate 61 0)).2 ≤ 60 ∧
    handleMessage initialServerState (List.replicate 60 0) 0 c7Frame =
      (initialServerState, List.replicate 60 0,
        [Effect.close 1008 "Message rate limit exceeded"]) :=
  c7_rate_limit_window (List.replicate 61 0) 0 initialServerState
    (List.replicate 60 0) 0 c7Frame (by decide) (by decide)

/-! ### Claim C1 -/

/-- C1 amended: the session store respects the 4-player capacity after any
sequence of handled events (joins, state publishes, leaves, connection
losses and timer firings) from the fresh process state — PROVIDED every
`UPDATE_STATE`/`FORCE_SYNC` payload accepted along the way itself carries
at most `MAX_PLAYERS` player slots.  The handlers themselves never grow a
roster past 4; the proviso is necessary because `UPDATE_STATE` stores a
client payload verbatim (see the counterexample). -/
theorem c1_player_capacity (events : List Event) (g : String)
    (gs : GameState) (hok : ∀ e ∈ events, eventPayloadOk e)
    (hlook : mapLookup (runEvents events).gameStates g = some gs) :
    gs.players.length ≤ MAX_PLAYERS := by
  have hinit : boundedMap initialServerState.gameStates := by
    intro g' gs' hl
    cases hl
  exact foldl_stepEvent_bounded events initialServerState hinit hok g gs hlook

/-- C1 counterexample: a single handled `UPDATE_STATE` message whose
payload carries five Player-slots is stored verbatim (the handler checks
only the serialized size, never the roster length), so the reachable store
holds a session with 5 > 4 slots — refuting the unconditional claim. -/
theorem c1_counterexample :
    mapLookup (runEvents [Event.updateState c1BigGame 10 0]).gameStates
      "g" = some c1BigGame ∧
    MAX_PLAYERS < c1BigGame.players.length := by
  refine ⟨by decide, by decide⟩

theorem c1_player_capacity_witness :
    mapLookup (runEvents [Event.updateState c1WGame 10 0,
      Event.joinGame "g" none "tok" [] 1]).gameStates "g" =
      some (mkGame "g" [mkPlayer 1 false false (some "a"),
        mkPlayer 2 false false (some "b"),
        createNewPlayer 3 "tok" []]) ∧
    (mkGame "g" [mkPlayer 1 false false (some "a"),
      mkPlayer 2 false false (some "b"),
      createNewPlayer 3 "tok" []]).players.length ≤ MAX_PLAYERS := by
  constructor
  · decide
  · apply c1_player_capacity [Event.updateState c1WGame 10 0,
      Event.joinGame "g" none "tok" [] 1] "g"
    · intro e he
      rcases List.mem_cons.mp he with h | h
      · subst h
        exact (by decide : c1WGame.players.length ≤ MAX_PLAYERS)
      · rcases List.mem_cons.mp h with h' | h'
        · subst h'
          exact trivial
        · cases h'
    · decide

/-! ### Claim C8 -/

/-- C8 amended: a ghost-slot takeover overwrites the slot's credential with
exactly the fresh output of the random token generator
(`generatePlayerToken`, an oracle input here); the server performs no
uniqueness check, so the new credential differs from the previously valid
credentials for the slot precisely when the generator's output does (the
hypothesis `ft ∉ prev`).  The unconditional claim — distinct for ALL
generator outcomes — fails (see the counterexample). -/
theorem c8_takeover_issues_generator_token (st : ServerState) (g : String)
    (gs : GameState) (p : Player) (ft : String) (deck : List Card)
    (now : Nat) (prev : List String)
    (hlook : mapLookup st.gameStates g = some gs)
    (hfind : gs.players.find? (fun q => q.isDisconnected) = some p)
    (hft : ft ∉ prev) :
    ∃ gs', mapLookup (handleJoinGame st g none ft deck now).1.gameStates g =
        some gs' ∧
      { p with isDisconnected := false,
               name := sanitizePlayerName ("Player " ++ toString p.id),
               playerToken := some ft } ∈ gs'.players ∧
      Effect.send (Reply.joinSuccess (some p.id) (some ft)) ∈
        (handleJoinGame st g none ft deck now).2 ∧
      ∀ t ∈ prev, (some ft : Option String) ≠ some t := by
  unfold handleJoinGame
  simp only [hlook]
  have hrc : (if tokenTruthy (none : Option String) then
      gs.players.find?
        (fun p => p.playerToken == (none : Option String) &&
          p.isDisconnected)
    else none) = (none : Option Player) := rfl
  simp only [hrc, hfind]
  refine ⟨_, mapLookup_mapInsert_self _ _ _, ?_, ?_, ?_⟩
  · exact updateFirst_mem_result hfind
  · exact List.mem_cons_self _ _
  · intro t ht h
    injection h with h
    exact hft (h ▸ ht)

/-- C8 counterexample: the generator (`Math.random`-based) can repeat a
value; when its fresh output equals the slot's previously valid credential
`"abc"`, the takeover acknowledges and stores `"abc"` again — the issued
credential does NOT differ from a previously valid credential for that
slot, refuting "in every execution, for all outcomes of the random token
generator". -/
theorem c8_counterexample :
    (mkPlayer 1 false true (some "abc")).playerToken = some "abc" ∧
    Effect.send (Reply.joinSuccess (some 1) (some "abc")) ∈
      (handleJoinGame c8State "g" none "abc" [] 0).2 ∧
    mapLookup (handleJoinGame c8State "g" none "abc" [] 0).1.gameStates
      "g" = some (mkGame "g" [c8AfterPlayer]) := by
  refine ⟨by decide, by decide, by decide⟩

theorem c8_takeover_issues_generator_token_witness :
    ∃ gs', mapLookup (handleJoinGame c8WState "g" none "new" [] 0).1.gameStates
        "g" = some gs' ∧
      { c8WPlayer with isDisconnected := false,
                       name := sanitizePlayerName
                         ("Player " ++ toString c8WPlayer.id),
                       playerToken := some "new" } ∈ gs'.players ∧
      Effect.send (Reply.joinSuccess (some c8WPlayer.id) (some "new")) ∈
        (handleJoinGame c8WState "g" none "new" [] 0).2 ∧
      ∀ t ∈ ["old"], (some "new" : Option String) ≠ some t :=
  c8_takeover_issues_generator_token c8WState "g" c8WGame c8WPlayer "new"
    [] 0 ["old"] (by decide) (by decide) (by decide)

/-! ### Claim C2 -/

/-- Core of the reversion guarantee: once a session holds a Dummy
(Automated) slot, no `JOIN_GAME` outcome — reconnection, takeover, new
player or spectator — ever assigns that slot's id, and the slot survives
the join still Automated with its credential unchanged (revoked). -/
theorem join_never_assigns_dummy_slot (st : ServerState) (g : String)
    (gs : GameState) (q : Player) (cred : Option String) (ft : String)
    (deck : List Card) (now : Nat)
    (hlook : mapLookup st.gameStates g = some gs)
    (hq : q ∈ gs.players) (hdum : q.isDummy = true)
    (hdisc : q.isDisconnected = false)
    (hnd : (gs.players.map (fun r => r.id)).Nodup) :
    (∀ j cr, Effect.send (Reply.joinSuccess (some j) cr) ∈
        (handleJoinGame st g cred ft deck now).2 → j ≠ q.id) ∧
    ∃ gs₂ q₂,
      mapLookup (handleJoinGame st g cred ft deck now).1.gameStates g =
        some gs₂ ∧ q₂ ∈ gs₂.players ∧ q₂.id = q.id ∧
      q₂.isDummy = true ∧ q₂.playerToken = q.playerToken := by
  unfold handleJoinGame
  simp only [hlook]
  cases hrc : (if tokenTruthy cred then
      gs.players.find?
        (fun p => p.playerToken == cred && p.isDisconnected)
    else none) with
  | some target =>
    simp only [hrc]
    have htm : target ∈ gs.players ∧ target.isDisconnected = true := by
      by_cases htt : tokenTruthy cred = true
      · rw [if_pos htt] at hrc
        have hp := List.find?_some hrc
        simp only [Bool.and_eq_true] at hp
        exact ⟨List.mem_of_find?_eq_some hrc, hp.2⟩
      · rw [if_neg htt] at hrc
        cases hrc
    have hne : target.id ≠ q.id := by
      intro h
      have heq := List.inj_on_of_nodup_map hnd htm.1 hq h
      rw [heq, hdisc] at htm
      exact Bool.false_ne_true htm.2
    constructor
    · intro j cr hjs
      simp only [List.mem_cons, List.not_mem_nil, or_false] at hjs
      rcases hjs with h | h | h
      · injection h with h
        injection h with h1 _
        injection h1 with h1
        exact h1 ▸ hne
      · cases h
      · cases h
    · refine ⟨_, q, mapLookup_mapInsert_self _ _ _, ?_, rfl, hdum, rfl⟩
      apply mem_updateFirst_of_not_pred hq
      simp [hdisc]
  | none =>
    simp only [hrc]
    cases hgh : gs.players.find? (fun p => p.isDisconnected) with
    | some target =>
      simp only [hgh]
      have htm : target ∈ gs.players ∧ target.isDisconnected = true :=
        ⟨List.mem_of_find?_eq_some hgh, List.find?_some hgh⟩
      have hne : target.id ≠ q.id := by
        intro h
        have heq := List.inj_on_of_nodup_map hnd htm.1 hq h
        rw [heq, hdisc] at htm
        exact Bool.false_ne_true htm.2
      constructor
      · intro j cr hjs
        simp only [List.mem_cons, List.not_mem_nil, or_false] at hjs
        rcases hjs with h | h | h
        · injection h with h
          injection h with h1 _
          injection h1 with h1
          exact h1 ▸ hne
        · cases h
        · cases h
      · refine ⟨_, q, mapLookup_mapInsert_self _ _ _, ?_, rfl, hdum, rfl⟩
        apply mem_updateFirst_of_not_pred hq
        exact hdisc
    | none =>
      simp only [hgh]
      split
      · constructor
        · intro j cr hjs
          simp only [List.mem_cons, List.not_mem_nil, or_false] at hjs
          rcases hjs with h | h | h
          · injection h with h
            injection h with h1 _
            injection h1 with h1
            intro hcontra
            apply lowestUnusedId_not_mem gs.players
            rw [← h1, hcontra]
            exact List.mem_map_of_mem (fun r => r.id) hq
          · cases h
          · cases h
        · refine ⟨_, q, mapLookup_mapInsert_self _ _ _, ?_, rfl, hdum, rfl⟩
          exact mem_sortById.mpr (List.mem_append_left _ hq)
      · constructor
        · intro j cr hjs
          simp only [List.mem_cons, List.not_mem_nil, or_false] at hjs
          rcases hjs with h | h
          · injection h with h
            injection h with h1 _
            cases h1
          · cases h
        · refine ⟨gs, q, ?_, hq, rfl, hdum, rfl⟩
          rw [resetInactivityTimer_gameStates]
          exact hlook

/-- C2: (a) a `JOIN_GAME` presenting a still-valid credential of a
Disconnected slot (the reversion timer has not fired, so the slot is still
Disconnected with its token intact) restores that same slot id — the only
field changed is the Disconnected mark, so the slot's deck and hand are
untouched — and is acknowledged with the original slot id and credential;
(b) after the slot's reversion timer has fired (`convertPlayerToDummy`,
which makes the slot Automated and revokes its credential), no `JOIN_GAME`
with any credential ever reclaims that slot: no join acknowledgement
carries its id, and the slot stays Automated with its credential still
revoked. -/
theorem c2_reconnection_protocol (st : ServerState) (g : String)
    (gs : GameState) (p : Player) (tok ft ft2 : String)
    (deck deck2 : List Card) (now now2 : Nat) (cred : Option String) :
    (mapLookup st.gameStates g = some gs → tok ≠ "" →
      gs.players.find? (fun q => q.playerToken == some tok &&
        q.isDisconnected) = some p →
      ∃ gs', mapLookup (handleJoinGame st g (some tok) ft deck
          now).1.gameStates g = some gs' ∧
        { p with isDisconnected := false } ∈ gs'.players ∧
        Effect.send (Reply.joinSuccess (some p.id) (some tok)) ∈
          (handleJoinGame st g (some tok) ft deck now).2) ∧
    (mapLookup st.gameStates g = some gs →
      gs.players.find? (fun q => q.id == p.id) = some p →
      p.isDisconnected = true →
      (gs.players.map (fun r => r.id)).Nodup →
      (∀ j cr, Effect.send (Reply.joinSuccess (some j) cr) ∈
        (handleJoinGame (convertPlayerToDummy st g p.id).1 g cred ft2 deck2
          now2).2 → j ≠ p.id) ∧
      ∃ gs₂ q₂, mapLookup (handleJoinGame (convertPlayerToDummy st g
          p.id).1 g cred ft2 deck2 now2).1.gameStates g = some gs₂ ∧
        q₂ ∈ gs₂.players ∧ q₂.id = p.id ∧ q₂.isDummy = true ∧
        q₂.playerToken = none) := by
  constructor
  · intro hlook htok hfind
    unfold handleJoinGame
    simp only [hlook]
    have htt : tokenTruthy (some tok) = true := by
      simp [tokenTruthy, htok]
    have hrc : (if tokenTruthy (some tok) then
        gs.players.find?
          (fun q => q.playerToken == some tok && q.isDisconnected)
      else none) = some p := by
      rw [if_pos htt]
      exact hfind
    simp only [hrc]
    have hpt : p.playerToken = some tok := by
      have hp := List.find?_some hfind
      simp only [Bool.and_eq_true, beq_iff_eq] at hp
      exact hp.1
    refine ⟨_, mapLookup_mapInsert_self _ _ _, ?_, ?_⟩
    · exact updateFirst_mem_result hfind
    · rw [hpt]
      exact List.mem_cons_self _ _
  · intro hlook hfind hdisc hnodup
    unfold convertPlayerToDummy
    simp only [hlook, hfind, hdisc]
    rw [if_pos trivial]
    have hq : dummify p ∈
        updateFirst gs.players (fun q => q.id == p.id) dummify :=
      updateFirst_mem_result hfind
    have hnd₁ : ((updateFirst gs.players (fun q => q.id == p.id)
        dummify).map (fun r => r.id)).Nodup := by
      rw [updateFirst_map_of_fixed gs.players (fun q => q.id == p.id)
        dummify (fun r => r.id) (fun x => rfl)]
      exact hnodup
    exact join_never_assigns_dummy_slot _ g _ (dummify p) cred ft2 deck2
      now2 (mapLookup_mapInsert_self _ _ _) hq rfl rfl hnd₁

theorem c2_reconnection_protocol_witness :
    (∃ gs', mapLookup (handleJoinGame c2State "g" (some "t1") "f" []
        0).1.gameStates "g" = some gs' ∧
      { c2P1 with isDisconnected := false } ∈ gs'.players ∧
      Effect.send (Reply.joinSuccess (some c2P1.id) (some "t1")) ∈
        (handleJoinGame c2State "g" (some "t1") "f" [] 0).2) ∧
    ((∀ j cr, Effect.send (Reply.joinSuccess (some j) cr) ∈
        (handleJoinGame (convertPlayerToDummy c2State "g" c2P1.id).1 "g"
          (some "t1") "f2" [] 1).2 → j ≠ c2P1.id) ∧
      ∃ gs₂ q₂, mapLookup (handleJoinGame (convertPlayerToDummy c2State "g"
          c2P1.id).1 "g" (some "t1") "f2" [] 1).1.gameStates "g" =
          some gs₂ ∧
        q₂ ∈ gs₂.players ∧ q₂.id = c2P1.id ∧ q₂.isDummy = true ∧
        q₂.playerToken = none) := by
  obtain ⟨ha, hb⟩ := c2_reconnection_protocol c2State "g" c2Game c2P1 "t1"
    "f" "f2" [] [] 0 1 (some "t1")
  exact ⟨ha (by decide) (by decide) (by decide),
    hb (by decide) (by decide) (by decide) (by decide)⟩

end NewAvalon

